import Mathlib

/-
Verification of the OnePieceSimulation navigators (mode1.py, mode2.py,
heap_node.py) against their natural-language specification.

Shallow embedding conventions:
  * Python ints are modelled as ℤ (ℕ for counts such as the number of
    teams or a buffer index), Python floats as ℚ (all arithmetic in the
    program is exact on the inputs of interest: sums, products, and
    divisions of machine-representable values; the program never relies
    on float rounding).
  * A Land object (landsites.Land, not under src/) is a record with the
    fields used by the navigators: name, gold (reward), guardians
    (guard cost).  Object identity for the Mode 2 buffer is the index
    of the record in the buffer list; `_update_site` writes through
    that index, which models Python reference aliasing for distinct
    buffer slots.
  * Fallible code (Python exceptions: ZeroDivisionError, popping an
    empty priority queue, deleting an absent key) returns Option;
    `none` means the call raises and never returns.
  * Collaborators absent from src/ are modelled from the spec contracts
    (section 6): the ordered keyed container is its in-order (key,
    value) listing with first-match lookup, delete-by-key failing on an
    absent key, and ordered insert-or-replace; the max-priority queue
    is a list of (index, score) nodes with pop-maximum failing on the
    empty queue and compared solely by score (heap_node.py comparators).
    Pop-maximum's tie-break among equal scores is unspecified by the
    spec; the model takes the leftmost maximum.  No claim settled below
    depends on the tie-break.
-/

set_option maxRecDepth 8000

namespace OnePieceSim

/-- A land site: identity, reward (gold) and guard cost (guardians).
Modelled from the spec (section 3); landsites.py is not under src/. -/
structure Land where
  name : String
  gold : ℚ
  guardians : ℤ
deriving DecidableEq

/-- Python division `x / y`: raises ZeroDivisionError when `y = 0`,
modelled as `none`. -/
def pyDiv (x y : ℚ) : Option ℚ :=
  if y = 0 then none else some (x / y)

/-! ## Mode 2 (mode2.py) -/

/-- State of a Mode2Navigator: the append-only buffer of sites
(`sites_temp`) and the number of teams (`n_teams`).  The heap
(`self.sites`) is rebuilt from scratch by every `simulate_day` call, so
it is not carried in the state. -/
structure Mode2State where
  sites_temp : List Land
  n_teams : ℕ
deriving DecidableEq

/-- Mode2Navigator.add_sites: append the new sites to the buffer,
preserving the order of existing elements and the input order of the
new ones (mode2.py lines 82-117). -/
def add_sites (st : Mode2State) (sites : List Land) : Mode2State :=
  { st with sites_temp := st.sites_temp ++ sites }

/-- Mode2Navigator.compute_score (mode2.py lines 169-194): returns
(o_score, reward_earned, remaining_adventurers).  The try/except around
the division is the `pyDiv` match: on ZeroDivisionError the reward is 0. -/
def compute_score (site : Land) (adventurers_size : ℤ) : ℚ × ℚ × ℤ :=
  let minimum_adventurers_needed : ℤ := min site.guardians adventurers_size
  let reward_earned : ℚ :=
    match pyDiv ((minimum_adventurers_needed : ℚ) * site.gold) (site.guardians : ℚ) with
    | none => 0
    | some q => min q site.gold
  let remaining_adventurers : ℤ := adventurers_size - minimum_adventurers_needed
  ((5 : ℚ) / 2 * (remaining_adventurers : ℚ) + reward_earned,
    reward_earned, remaining_adventurers)

/-- The score formula exactly as the spec states it (section 3):
needed = min(guard_cost, B); reward_ob = min(needed * reward /
guard_cost, reward), 0 when guard_cost = 0; leftover = B - needed;
score = 2.5 * leftover + reward_ob.  Written from the spec's words, to
be compared with `compute_score` (the source translation). -/
def computeScoreSpec (site : Land) (B : ℤ) : ℚ × ℚ × ℤ :=
  let needed : ℤ := min site.guardians B
  let reward_ob : ℚ :=
    if site.guardians = 0 then 0
    else min ((needed : ℚ) * site.gold / (site.guardians : ℚ)) site.gold
  let leftover : ℤ := B - needed
  ((5 : ℚ) / 2 * (leftover : ℚ) + reward_ob, reward_ob, leftover)

/-- A heap entry (heap_node.py): the land (by buffer index, modelling
the Python object reference) and its o-score.  All heap_node.py
comparators consult only the score. -/
abbrev HeapNode := ℕ × ℚ

/-- MaxHeap.get_max, modelled from the spec (section 6 contract:
pop-maximum fails on the empty queue, ordering solely by score;
tie-break unspecified, taken as leftmost).  Returns the removed node
and the remaining nodes. -/
def popMax : List HeapNode → Option (HeapNode × List HeapNode)
  | [] => none
  | x :: xs =>
    match popMax xs with
    | none => some (x, [])
    | some (m, r) => if m.2 > x.2 then some (m, x :: r) else some (x, xs)

/-- MaxHeap.add, modelled from the spec (section 6 contract): insert a
node into the queue. -/
def heapAdd (h : List HeapNode) (n : HeapNode) : List HeapNode := h ++ [n]

/-- Mode2Navigator.construct_score_data_structure (mode2.py lines
196-217): one heap node per buffered site, scored for this day's
budget. -/
def construct_score_data_structure (buffer : List Land) (adventurer_size : ℤ) :
    List HeapNode :=
  buffer.enum.map fun p => (p.1, (compute_score p.2 adventurer_size).1)

/-- Placeholder land returned by an out-of-range buffer read; never
reached on the runs produced by `simulate_day`, whose heap indices all
come from `List.enum` of the buffer. -/
def defaultLand : Land := ⟨"", 0, 0⟩

/-- The land-field mutation of Mode2Navigator._update_site (mode2.py
lines 233-235): guardians decrease by guardians_lost = B - leftover,
gold decreases by the reward earned, clamped at zero. -/
def attackLand (land : Land) (B : ℤ) : Land :=
  let r := compute_score land B
  { land with guardians := land.guardians - (B - r.2.2),
              gold := max 0 (land.gold - r.2.1) }

/-- One team's turn in Mode2Navigator.simulate_day (mode2.py lines
139-164): pop the maximum node (failing on an empty queue), attack only
if its score strictly exceeds 2.5 * budget; an attack records
(site, B - leftover), mutates the site and reinserts a freshly scored
node; otherwise record (None, 0) and reinsert nothing. -/
def dayStep (B : ℤ) (buffer : List Land) (heap : List HeapNode) :
    Option ((Option ℕ × ℤ) × List Land × List HeapNode) :=
  match popMax heap with
  | none => none
  | some (node, rest) =>
    if node.2 > (5 : ℚ) / 2 * (B : ℚ) then
      let land := buffer.getD node.1 defaultLand
      let r := compute_score land B
      some ((some node.1, B - r.2.2),
        buffer.set node.1 (attackLand land B),
        heapAdd rest (node.1, (compute_score (attackLand land B) B).1))
    else
      some ((none, 0), buffer, rest)

/-- The per-team loop of simulate_day: k teams in order, each taking
one `dayStep`; a failing step makes the whole call fail. -/
def dayLoop (B : ℤ) : ℕ → List Land → List HeapNode →
    Option (List (Option ℕ × ℤ) × List Land × List HeapNode)
  | 0, buffer, heap => some ([], buffer, heap)
  | k + 1, buffer, heap =>
    match dayStep B buffer heap with
    | none => none
    | some (r, b2, h2) =>
      match dayLoop B k b2 h2 with
      | none => none
      | some (rs, b3, h3) => some (r :: rs, b3, h3)

/-- Mode2Navigator.simulate_day (mode2.py lines 119-167): rebuild the
heap from the buffer, then run one turn per team, returning the
per-team results in team order together with the post-call state. -/
def simulate_day (st : Mode2State) (adventurer_size : ℤ) :
    Option (List (Option ℕ × ℤ) × Mode2State) :=
  match dayLoop adventurer_size st.n_teams st.sites_temp
      (construct_score_data_structure st.sites_temp adventurer_size) with
  | none => none
  | some (rs, buf, _) => some (rs, { st with sites_temp := buf })

/-! ## Mode 1 (mode1.py) -/

/-- State of a Mode1Navigator: the ordered keyed container holding the
sites (as its ascending in-order (ratio key, land) listing — the BST of
data_structures.bst is not under src/ and is modelled from the spec's
section 6 contract), and the stored resource budget. -/
structure Mode1State where
  entries : List (ℚ × Land)
  total_adventurers : ℤ
deriving DecidableEq

/-- The ratio key guard_cost / reward of a site (mode1.py lines 184 and
192): Python raises ZeroDivisionError on a zero reward. -/
def ratioKeyM (land : Land) : Option ℚ :=
  pyDiv (land.guardians : ℚ) land.gold

/-- The ratio key as a total function (for stating lookups); agrees
with `ratioKeyM` whenever the reward is nonzero. -/
def ratioKey (land : Land) : ℚ := (land.guardians : ℚ) / land.gold

/-- The while loop of Mode1Navigator.select_sites (mode1.py lines
107-123) over the remaining in-order traversal: while adventurers
remain, visit the next site, send min(remaining, guardians), and record
the visit; stop on exhaustion. -/
def selectSitesGo : ℤ → List (ℚ × Land) → List (Land × ℤ)
  | _, [] => []
  | remaining, e :: rest =>
    if remaining > 0 then
      (e.2, min remaining e.2.guardians) ::
        selectSitesGo (remaining - min remaining e.2.guardians) rest
    else []

/-- Mode1Navigator.select_sites (mode1.py lines 85-126): traverse the
container in ascending key order under the stored budget.  The method
performs no writes, so the post-call state is the input state. -/
def select_sites (st : Mode1State) : List (Land × ℤ) × Mode1State :=
  (selectSitesGo st.total_adventurers st.entries, st)

/-- The value of `remaining_adventurers` when the select_sites loop
finishes, for the same traversal. -/
def remainingAfter : ℤ → List (ℚ × Land) → ℤ
  | remaining, [] => remaining
  | remaining, e :: rest =>
    if remaining > 0 then
      remainingAfter (remaining - min remaining e.2.guardians) rest
    else remaining

/-- Total adventurers sent over a select_sites result. -/
def sumSent (l : List (Land × ℤ)) : ℤ := (l.map Prod.snd).sum

/-- The reward term of one visited site in
select_sites_from_adventure_numbers (mode1.py line 160):
min(adv * gold / guardians, gold).  The division is bare in the source
— no try/except — so a zero guard count propagates ZeroDivisionError. -/
def landReward (land : Land) (adv : ℤ) : Option ℚ :=
  match pyDiv ((adv : ℚ) * land.gold) (land.guardians : ℚ) with
  | none => none
  | some q => some (min q land.gold)

/-- The inner reward summation of select_sites_from_adventure_numbers
(mode1.py lines 155-161). -/
def pathReward : List (Land × ℤ) → Option ℚ
  | [] => some 0
  | p :: rest =>
    match landReward p.1 p.2, pathReward rest with
    | some r, some s => some (r + s)
    | _, _ => none

/-- The per-budget loop of select_sites_from_adventure_numbers
(mode1.py lines 148-163): overwrite the stored budget with the probed
one, rerun select_sites, and sum the rewards of the visited sites. -/
def ssfanGo : Mode1State → List ℤ → Option (List ℚ × Mode1State)
  | st, [] => some ([], st)
  | st, b :: bs =>
    match pathReward (select_sites { st with total_adventurers := b }).1 with
    | none => none
    | some r =>
      match ssfanGo { st with total_adventurers := b } bs with
      | none => none
      | some (rs, st2) => some (r :: rs, st2)

/-- Mode1Navigator.select_sites_from_adventure_numbers (mode1.py lines
128-168): record the original budget, run the per-budget loop, then
restore the original budget before returning. -/
def select_sites_from_adventure_numbers (st : Mode1State) (adventure_numbers : List ℤ) :
    Option (List ℚ × Mode1State) :=
  match ssfanGo st adventure_numbers with
  | none => none
  | some (rs, st2) =>
    some (rs, { st2 with total_adventurers := st.total_adventurers })

/-- Delete-by-key on the ordered container (BST delete, modelled from
the spec's section 6 contract): removes the entry with the given key,
failing with a not-found condition when the key is absent. -/
def bstDelete (key : ℚ) : List (ℚ × Land) → Option (List (ℚ × Land))
  | [] => none
  | e :: rest =>
    if e.1 = key then some rest
    else
      match bstDelete key rest with
      | none => none
      | some rest2 => some (e :: rest2)

/-- Insert-or-replace on the ordered container (modelled from the
spec's section 6 contract), keeping the in-order listing ordered. -/
def bstInsert (key : ℚ) (land : Land) : List (ℚ × Land) → List (ℚ × Land)
  | [] => [(key, land)]
  | e :: rest =>
    if key < e.1 then (key, land) :: e :: rest
    else if key = e.1 then (key, land) :: rest
    else e :: bstInsert key land rest

/-- Lookup-by-key on the ordered container (modelled from the spec's
section 6 contract). -/
def bstLookup (key : ℚ) : List (ℚ × Land) → Option Land
  | [] => none
  | e :: rest => if e.1 = key then some e.2 else bstLookup key rest

/-- The mutation update_site applies to the passed site (mode1.py lines
188-189): overwrite gold and guardians with the new values. -/
def updatedLand (land : Land) (new_reward : ℚ) (new_guardians : ℤ) : Land :=
  { land with gold := new_reward, guardians := new_guardians }

/-- Mode1Navigator.update_site (mode1.py lines 170-193): delete the
entry keyed by the site's current ratio (failing when absent or when a
ratio computation divides by a zero reward), mutate the site's fields,
and reinsert it under the ratio key recomputed from the new values. -/
def update_site (st : Mode1State) (land : Land) (new_reward : ℚ) (new_guardians : ℤ) :
    Option Mode1State :=
  match ratioKeyM land with
  | none => none
  | some key =>
    match bstDelete key st.entries with
    | none => none
    | some entries1 =>
      let land2 := updatedLand land new_reward new_guardians
      match ratioKeyM land2 with
      | none => none
      | some key2 => some { st with entries := bstInsert key2 land2 entries1 }

def demoA : Land := ⟨"A", 500, 100⟩
def demoB : Land := ⟨"B", 300, 170⟩
def demoC : Land := ⟨"C", 100, 50⟩

/-- The spec's Mode 1 working set, in ascending ratio order
(A: 1/5, C: 1/2, B: 17/30). -/
def demoMode1 : Mode1State :=
  ⟨[(1/5, demoA), (1/2, demoC), (17/30, demoB)], 300⟩

example : (select_sites demoMode1).1 =
    [(demoA, 100), (demoC, 50), (demoB, 150)] := by
  norm_num [select_sites, selectSitesGo, demoMode1, demoA, demoB, demoC, min_def]

example : select_sites_from_adventure_numbers demoMode1 [130, 500, 230] =
    some ([560, 900, 12600/17], demoMode1) := by
  norm_num [select_sites_from_adventure_numbers, ssfanGo, pathReward, landReward,
    pyDiv, select_sites, selectSitesGo, demoMode1, demoA, demoB, demoC, min_def]

/-! ## Lemmas about the priority queue model -/

theorem popMax_ne_none (x : HeapNode) (xs : List HeapNode) : popMax (x :: xs) ≠ none := by
  simp only [popMax]
  cases hp : popMax xs with
  | none => simp
  | some p =>
    obtain ⟨m, r⟩ := p
    by_cases h : m.2 > x.2 <;> simp [h]

theorem popMax_perm : ∀ (l : List HeapNode) (m : HeapNode) (r : List HeapNode),
    popMax l = some (m, r) → l.Perm (m :: r) := by
  intro l
  induction l with
  | nil => intro m r h; simp [popMax] at h
  | cons x xs ih =>
    intro m r h
    cases hp : popMax xs with
    | none =>
      simp only [popMax, hp, Option.some.injEq, Prod.mk.injEq] at h
      obtain ⟨rfl, rfl⟩ := h
      cases xs with
      | nil => exact List.Perm.refl _
      | cons y ys => exact absurd hp (popMax_ne_none y ys)
    | some p =>
      obtain ⟨m0, r0⟩ := p
      simp only [popMax, hp] at h
      by_cases hc : m0.2 > x.2
      · rw [if_pos hc] at h
        simp only [Option.some.injEq, Prod.mk.injEq] at h
        obtain ⟨rfl, rfl⟩ := h
        exact ((ih m0 r0 hp).cons x).trans (List.Perm.swap m0 x r0)
      · rw [if_neg hc] at h
        simp only [Option.some.injEq, Prod.mk.injEq] at h
        obtain ⟨rfl, rfl⟩ := h
        exact List.Perm.refl _

theorem popMax_max : ∀ (l : List HeapNode) (m : HeapNode) (r : List HeapNode),
    popMax l = some (m, r) → ∀ y ∈ l, y.2 ≤ m.2 := by
  intro l
  induction l with
  | nil => intro m r h; simp [popMax] at h
  | cons x xs ih =>
    intro m r h y hy
    cases hp : popMax xs with
    | none =>
      simp only [popMax, hp, Option.some.injEq, Prod.mk.injEq] at h
      obtain ⟨rfl, rfl⟩ := h
      cases xs with
      | nil =>
        rcases List.mem_cons.mp hy with rfl | hmem
        · exact le_refl _
        · simp at hmem
      | cons z zs => exact absurd hp (popMax_ne_none z zs)
    | some p =>
      obtain ⟨m0, r0⟩ := p
      simp only [popMax, hp] at h
      by_cases hc : m0.2 > x.2
      · rw [if_pos hc] at h
        simp only [Option.some.injEq, Prod.mk.injEq] at h
        obtain ⟨rfl, rfl⟩ := h
        rcases List.mem_cons.mp hy with rfl | hmem
        · exact le_of_lt hc
        · exact ih m0 r0 hp y hmem
      · rw [if_neg hc] at h
        simp only [Option.some.injEq, Prod.mk.injEq] at h
        obtain ⟨rfl, rfl⟩ := h
        rcases List.mem_cons.mp hy with rfl | hmem
        · exact le_refl _
        · exact le_trans (ih m0 r0 hp y hmem) (le_of_not_lt hc)

/-! ## Lemmas about simulate_day -/

theorem dayLoop_below (B : ℤ) :
    ∀ (k : ℕ) (buffer : List Land) (heap : List HeapNode),
      (∀ y ∈ heap, ¬ (y.2 > (5 : ℚ) / 2 * (B : ℚ))) →
      (k ≤ heap.length →
        ∃ h2, dayLoop B k buffer heap =
            some (List.replicate k ((none : Option ℕ), (0 : ℤ)), buffer, h2) ∧
          (∀ y ∈ h2, ¬ (y.2 > (5 : ℚ) / 2 * (B : ℚ))) ∧ h2.length + k = heap.length) ∧
      (heap.length < k → dayLoop B k buffer heap = none) := by
  intro k
  induction k with
  | zero =>
    intro buffer heap hall
    exact ⟨fun _ => ⟨heap, rfl, hall, rfl⟩, fun h => absurd h (Nat.not_lt_zero _)⟩
  | succ k ih =>
    intro buffer heap hall
    cases heap with
    | nil =>
      refine ⟨fun hk => absurd hk (by simp), fun _ => ?_⟩
      simp [dayLoop, dayStep, popMax]
    | cons x xs =>
      obtain ⟨⟨m, r⟩, hp⟩ : ∃ p, popMax (x :: xs) = some p := by
        cases hq : popMax (x :: xs) with
        | none => exact absurd hq (popMax_ne_none x xs)
        | some p => exact ⟨p, rfl⟩
      have hperm := popMax_perm _ _ _ hp
      have hm : ¬ (m.2 > (5 : ℚ) / 2 * (B : ℚ)) :=
        hall m (hperm.mem_iff.mpr (List.mem_cons_self m r))
      have hstep : dayStep B buffer (x :: xs) = some ((none, 0), buffer, r) := by
        simp only [dayStep, hp, if_neg hm]
      have hallr : ∀ y ∈ r, ¬ (y.2 > (5 : ℚ) / 2 * (B : ℚ)) := fun y hy =>
        hall y (hperm.mem_iff.mpr (List.mem_cons_of_mem m hy))
      have hlen : r.length = xs.length := by
        have hl2 := hperm.length_eq
        simp only [List.length_cons] at hl2
        omega
      obtain ⟨ihl, ihr⟩ := ih buffer r hallr
      constructor
      · intro hk
        simp only [List.length_cons] at hk
        obtain ⟨h2, heq, hall2, hlen2⟩ := ihl (by omega)
        refine ⟨h2, ?_, hall2, ?_⟩
        · simp only [dayLoop, hstep, heq, List.replicate_succ]
        · simp only [List.length_cons]
          omega
      · intro hk
        simp only [List.length_cons] at hk
        have hk2 : r.length < k := by omega
        simp only [dayLoop, hstep, ihr hk2]

/-- C1 (amended): during a simulate_day call, as soon as a team's popped
maximum-score entry fails the strict attack threshold, that team and
every remaining team of the call records (none, 0) with no further
mutation of any buffered site — provided the queue still holds an entry
at each remaining team's turn (each such turn removes one entry and
reinserts nothing).  When the per-team loop has more remaining teams
than queue entries, the call fails with the empty-queue condition of
pop-maximum instead of recording (none, 0). -/
theorem dayLoop_after_below_threshold_pop (B : ℤ) (k : ℕ) (buffer : List Land)
    (heap : List HeapNode) (m : HeapNode) (r : List HeapNode)
    (hpop : popMax heap = some (m, r))
    (hfail : ¬ (m.2 > (5 : ℚ) / 2 * (B : ℚ))) :
    (k ≤ heap.length →
      ∃ h2, dayLoop B k buffer heap =
        some (List.replicate k ((none : Option ℕ), (0 : ℤ)), buffer, h2)) ∧
    (heap.length < k → dayLoop B k buffer heap = none) := by
  have hall : ∀ y ∈ heap, ¬ (y.2 > (5 : ℚ) / 2 * (B : ℚ)) := fun y hy hgt =>
    hfail (lt_of_lt_of_le hgt (popMax_max _ _ _ hpop y hy))
  obtain ⟨hl, hr⟩ := dayLoop_below B k buffer heap hall
  exact ⟨fun hk => (hl hk).imp (fun h2 hh => hh.1), hr⟩

/-- Witness for the amended C1 theorem at a concrete run: one team, one
below-threshold entry. -/
theorem dayLoop_after_below_threshold_pop_witness :
    ∃ h2, dayLoop 1 1 [] [((0 : ℕ), (1 : ℚ))] =
      some (List.replicate 1 ((none : Option ℕ), (0 : ℤ)), [], h2) :=
  (dayLoop_after_below_threshold_pop 1 1 [] [(0, 1)] (0, 1) [] rfl
    (by norm_num)).1 (by simp)

/-- C1 (counterexample): a site whose score 248.5 fails the threshold
250 with two teams: the first team pops the only entry and records
(none, 0), the second team's pop fails on the now-empty queue, so the
call fails instead of returning two (none, 0) entries. -/
theorem simulate_day_empty_queue_fault :
    simulate_day ⟨[⟨"X", 1, 1⟩], 2⟩ 100 = none := by
  with_unfolding_all decide

/-! ## Invariants of simulate_day -/

theorem getD_mem_or_eq (l : List Land) (i : ℕ) (d : Land) :
    l.getD i d ∈ l ∨ l.getD i d = d := by
  induction l generalizing i with
  | nil => right; cases i <;> rfl
  | cons a t ih =>
    cases i with
    | zero => left; exact List.mem_cons_self a t
    | succ j =>
      rcases ih j with h | h
      · left
        rw [List.getD_cons_succ]
        exact List.mem_cons_of_mem a h
      · right
        rw [List.getD_cons_succ]
        exact h

theorem attackLand_fields (land : Land) (B : ℤ) :
    attackLand land B =
      { land with guardians := land.guardians - min land.guardians B,
                  gold := max 0 (land.gold - (compute_score land B).2.1) } := by
  simp only [attackLand, compute_score, Land.mk.injEq, true_and]
  omega

theorem dayStep_cases (B : ℤ) (buffer : List Land) (heap : List HeapNode)
    (out : (Option ℕ × ℤ) × List Land × List HeapNode)
    (h : dayStep B buffer heap = some out) :
    (out.1 = ((none : Option ℕ), (0 : ℤ)) ∧ out.2.1 = buffer) ∨
    (∃ i, out.1 = (some i, min (buffer.getD i defaultLand).guardians B) ∧
      out.2.1 = buffer.set i (attackLand (buffer.getD i defaultLand) B)) := by
  cases hp : popMax heap with
  | none => simp [dayStep, hp] at h
  | some p =>
    obtain ⟨node, rest⟩ := p
    by_cases hc : node.2 > (5 : ℚ) / 2 * (B : ℚ)
    · right
      simp only [dayStep, hp, if_pos hc, Option.some.injEq] at h
      refine ⟨node.1, ?_, ?_⟩
      · rw [← h]
        simp only [compute_score, Prod.mk.injEq, true_and]
        omega
      · rw [← h]
    · left
      simp only [dayStep, hp, if_neg hc, Option.some.injEq] at h
      rw [← h]
      exact ⟨rfl, rfl⟩

theorem dayStep_guard_nonneg (B : ℤ) (buffer : List Land) (heap : List HeapNode)
    (out : (Option ℕ × ℤ) × List Land × List HeapNode)
    (h : dayStep B buffer heap = some out)
    (hbuf : ∀ l ∈ buffer, 0 ≤ l.guardians) :
    ∀ l ∈ out.2.1, 0 ≤ l.guardians := by
  rcases dayStep_cases B buffer heap out h with ⟨_, hb⟩ | ⟨i, _, hb⟩
  · rw [hb]; exact hbuf
  · rw [hb]
    intro l hl
    rcases List.mem_or_eq_of_mem_set hl with hmem | heq
    · exact hbuf l hmem
    · subst heq
      rw [attackLand_fields]
      exact sub_nonneg.mpr (min_le_left _ _)

theorem dayStep_gold_nonneg (B : ℤ) (buffer : List Land) (heap : List HeapNode)
    (out : (Option ℕ × ℤ) × List Land × List HeapNode)
    (h : dayStep B buffer heap = some out)
    (hbuf : ∀ l ∈ buffer, 0 ≤ l.gold) :
    ∀ l ∈ out.2.1, 0 ≤ l.gold := by
  rcases dayStep_cases B buffer heap out h with ⟨_, hb⟩ | ⟨i, _, hb⟩
  · rw [hb]; exact hbuf
  · rw [hb]
    intro l hl
    rcases List.mem_or_eq_of_mem_set hl with hmem | heq
    · exact hbuf l hmem
    · subst heq
      rw [attackLand_fields]
      exact le_max_left _ _

theorem dayStep_sent_bounds (B : ℤ) (buffer : List Land) (heap : List HeapNode)
    (out : (Option ℕ × ℤ) × List Land × List HeapNode)
    (h : dayStep B buffer heap = some out) (hB : 0 ≤ B)
    (hbuf : ∀ l ∈ buffer, 0 ≤ l.guardians) :
    0 ≤ out.1.2 ∧ out.1.2 ≤ B ∧ (out.1.1 = none → out.1.2 = 0) := by
  rcases dayStep_cases B buffer heap out h with ⟨h1, _⟩ | ⟨i, h1, _⟩
  · rw [h1]
    exact ⟨le_refl 0, hB, fun _ => rfl⟩
  · have hg : 0 ≤ (buffer.getD i defaultLand).guardians := by
      rcases getD_mem_or_eq buffer i defaultLand with hm | he
      · exact hbuf _ hm
      · rw [he]
        norm_num [defaultLand]
    rw [h1]
    exact ⟨le_min hg hB, min_le_right _ _, by simp⟩

theorem dayLoop_guard_inv (B : ℤ) :
    ∀ (k : ℕ) (buffer : List Land) (heap : List HeapNode) (rs : List (Option ℕ × ℤ))
      (b3 : List Land) (h3 : List HeapNode),
      dayLoop B k buffer heap = some (rs, b3, h3) →
      (∀ l ∈ buffer, 0 ≤ l.guardians) →
      (∀ l ∈ b3, 0 ≤ l.guardians) ∧
      (0 ≤ B → ∀ p ∈ rs, 0 ≤ p.2 ∧ p.2 ≤ B ∧ (p.1 = none → p.2 = 0)) := by
  intro k
  induction k with
  | zero =>
    intro buffer heap rs b3 h3 h hbuf
    simp only [dayLoop, Option.some.injEq, Prod.mk.injEq] at h
    obtain ⟨rfl, rfl, rfl⟩ := h
    exact ⟨hbuf, fun _ p hp => absurd hp (List.not_mem_nil p)⟩
  | succ k ih =>
    intro buffer heap rs b3 h3 h hbuf
    cases hs : dayStep B buffer heap with
    | none => simp [dayLoop, hs] at h
    | some out =>
      obtain ⟨r, b2, h2⟩ := out
      cases hrec : dayLoop B k b2 h2 with
      | none => simp [dayLoop, hs, hrec] at h
      | some q =>
        obtain ⟨rs2, b4, h4⟩ := q
        simp only [dayLoop, hs, hrec, Option.some.injEq, Prod.mk.injEq] at h
        obtain ⟨rfl, rfl, rfl⟩ := h
        have hbuf2 : ∀ l ∈ b2, 0 ≤ l.guardians :=
          dayStep_guard_nonneg B buffer heap (r, b2, h2) hs hbuf
        obtain ⟨hb4, hrs2⟩ := ih b2 h2 rs2 b4 h4 hrec hbuf2
        refine ⟨hb4, fun hB p hp => ?_⟩
        rcases List.mem_cons.mp hp with rfl | hmem
        · exact dayStep_sent_bounds B buffer heap (p, b2, h2) hs hB hbuf
        · exact hrs2 hB p hmem

theorem dayLoop_gold_inv (B : ℤ) :
    ∀ (k : ℕ) (buffer : List Land) (heap : List HeapNode) (rs : List (Option ℕ × ℤ))
      (b3 : List Land) (h3 : List HeapNode),
      dayLoop B k buffer heap = some (rs, b3, h3) →
      (∀ l ∈ buffer, 0 ≤ l.gold) →
      ∀ l ∈ b3, 0 ≤ l.gold := by
  intro k
  induction k with
  | zero =>
    intro buffer heap rs b3 h3 h hbuf
    simp only [dayLoop, Option.some.injEq, Prod.mk.injEq] at h
    obtain ⟨rfl, rfl, rfl⟩ := h
    exact hbuf
  | succ k ih =>
    intro buffer heap rs b3 h3 h hbuf
    cases hs : dayStep B buffer heap with
    | none => simp [dayLoop, hs] at h
    | some out =>
      obtain ⟨r, b2, h2⟩ := out
      cases hrec : dayLoop B k b2 h2 with
      | none => simp [dayLoop, hs, hrec] at h
      | some q =>
        obtain ⟨rs2, b4, h4⟩ := q
        simp only [dayLoop, hs, hrec, Option.some.injEq, Prod.mk.injEq] at h
        obtain ⟨rfl, rfl, rfl⟩ := h
        exact ih b2 h2 rs2 b4 h4 hrec
          (dayStep_gold_nonneg B buffer heap (r, b2, h2) hs hbuf)

/-! ## Claim theorems for Mode 2 -/

/-- C2: compute_score(site, B) returns exactly the triple
(2.5 * leftover + reward_ob, reward_ob, leftover) of the spec's score
formula, with needed = min(guard_cost, B), reward_ob = min(needed *
reward / guard_cost, reward) and reward_ob = 0 when guard_cost = 0 (the
ZeroDivisionError branch is caught, no division fault escapes), and
leftover = B - needed.  The function is pure: it takes only the site
and budget and returns the triple, mutating neither the site nor the
navigator (it is a plain function of its arguments in this embedding,
mirroring the write-free source body). -/
theorem compute_score_eq_spec (site : Land) (B : ℤ) :
    compute_score site B = computeScoreSpec site B := by
  by_cases hg : site.guardians = 0
  · simp [compute_score, computeScoreSpec, pyDiv, hg]
  · have hq : ((site.guardians : ℚ)) ≠ 0 := Int.cast_ne_zero.mpr hg
    simp [compute_score, computeScoreSpec, pyDiv, hg, hq]

/-- The Mode 2 end-to-end scenario state: Mode2Navigator(5) followed by
add_sites([A(400,100), B(750,120), C(200,30)]). -/
def demoMode2 : Mode2State :=
  add_sites ⟨[], 5⟩ [⟨"A", 400, 100⟩, ⟨"B", 750, 120⟩, ⟨"C", 200, 30⟩]

/-- C4: on the spec's Mode 2 scenario (sites A(400,100), B(750,120),
C(200,30), five teams, daily budget 100), simulate_day(100) returns the
per-team list [(B,100), (A,100), (C,30), (B,20), (none,0)] in that
order.  Result sites are buffer indices: 0 = A, 1 = B, 2 = C (second
conjunct); the final buffer has every site depleted to zero. -/
theorem simulate_day_demo :
    simulate_day demoMode2 100 =
      some ([(some 1, 100), (some 0, 100), (some 2, 30), (some 1, 20), (none, 0)],
        ⟨[⟨"A", 0, 0⟩, ⟨"B", 0, 0⟩, ⟨"C", 0, 0⟩], 5⟩) ∧
    demoMode2.sites_temp.map Land.name = ["A", "B", "C"] := by
  constructor
  · with_unfolding_all decide
  · rfl

/-- C8: a simulate_day call on a buffer of sites with non-negative
reward and guard cost leaves every buffered site with non-negative
reward and guard cost: each attack decrements the attacked site's
guardians by exactly B - leftover = min(guardians, B) and its gold by
the reward obtained clamped at a floor of zero (second conjunct), and
unattacked sites are untouched. -/
theorem simulate_day_preserves_nonneg (st : Mode2State) (B : ℤ)
    (rs : List (Option ℕ × ℤ)) (st2 : Mode2State) (hB : 0 ≤ B)
    (h0 : ∀ l ∈ st.sites_temp, 0 ≤ l.gold ∧ 0 ≤ l.guardians)
    (h : simulate_day st B = some (rs, st2)) :
    (∀ l ∈ st2.sites_temp, 0 ≤ l.gold ∧ 0 ≤ l.guardians) ∧
    ∀ land : Land, attackLand land B =
      { land with guardians := land.guardians - min land.guardians B,
                  gold := max 0 (land.gold - (compute_score land B).2.1) } := by
  refine ⟨?_, fun land => attackLand_fields land B⟩
  cases hl : dayLoop B st.n_teams st.sites_temp
      (construct_score_data_structure st.sites_temp B) with
  | none => simp [simulate_day, hl] at h
  | some q =>
    obtain ⟨rs0, buf, hp⟩ := q
    simp only [simulate_day, hl, Option.some.injEq, Prod.mk.injEq] at h
    obtain ⟨rfl, rfl⟩ := h
    have hgold := dayLoop_gold_inv B st.n_teams st.sites_temp _ rs0 buf hp hl
      (fun l hl2 => (h0 l hl2).1)
    have hguard := (dayLoop_guard_inv B st.n_teams st.sites_temp _ rs0 buf hp hl
      (fun l hl2 => (h0 l hl2).2)).1
    exact fun l hl2 => ⟨hgold l hl2, hguard l hl2⟩

/-- Witness for C8 at a concrete run: one site (gold 10, guardians 2),
one team, budget 10; the team attacks (score 30 > 25) and depletes the
site to (0, 0). -/
theorem simulate_day_preserves_nonneg_witness :
    (∀ l ∈ (Mode2State.mk [⟨"X", 0, 0⟩] 1).sites_temp, 0 ≤ l.gold ∧ 0 ≤ l.guardians) ∧
    ∀ land : Land, attackLand land 10 =
      { land with guardians := land.guardians - min land.guardians 10,
                  gold := max 0 (land.gold - (compute_score land 10).2.1) } :=
  simulate_day_preserves_nonneg ⟨[⟨"X", 10, 2⟩], 1⟩ 10 [(some 0, 2)]
    ⟨[⟨"X", 0, 0⟩], 1⟩ (by norm_num)
    (by intro l hl
        simp only [List.mem_singleton] at hl
        subst hl
        norm_num)
    (by with_unfolding_all decide)

/-- C9: when every buffered site has a non-negative guard cost and the
per-round budget B is non-negative, every pair of the list returned by
simulate_day(B) satisfies 0 ≤ sent ≤ B, a non-attacking team records
sent = 0, and an attacking team's pair is exactly
(site, min(guardians at pop time, B)) (second conjunct, stated on the
per-team step). -/
theorem simulate_day_sent_bounds (st : Mode2State) (B : ℤ)
    (rs : List (Option ℕ × ℤ)) (st2 : Mode2State) (hB : 0 ≤ B)
    (h0 : ∀ l ∈ st.sites_temp, 0 ≤ l.guardians)
    (h : simulate_day st B = some (rs, st2)) :
    (∀ p ∈ rs, 0 ≤ p.2 ∧ p.2 ≤ B ∧ (p.1 = none → p.2 = 0)) ∧
    ∀ (buffer : List Land) (heap : List HeapNode)
      (out : (Option ℕ × ℤ) × List Land × List HeapNode),
      dayStep B buffer heap = some out → out.1.1 ≠ none →
      ∃ i, out.1 = (some i, min (buffer.getD i defaultLand).guardians B) := by
  constructor
  · cases hl : dayLoop B st.n_teams st.sites_temp
        (construct_score_data_structure st.sites_temp B) with
    | none => simp [simulate_day, hl] at h
    | some q =>
      obtain ⟨rs0, buf, hp⟩ := q
      simp only [simulate_day, hl, Option.some.injEq, Prod.mk.injEq] at h
      obtain ⟨rfl, rfl⟩ := h
      exact (dayLoop_guard_inv B st.n_teams st.sites_temp _ rs0 buf hp hl h0).2 hB
  · intro buffer heap out hstep hne
    rcases dayStep_cases B buffer heap out hstep with ⟨h1, _⟩ | ⟨i, h1, _⟩
    · exact absurd (by rw [h1]) hne
    · exact ⟨i, h1⟩

/-- Witness for C9 at a concrete run: one site (gold 12, guardians 3),
one team, budget 8 (score 2.5 * 5 + 12 = 24.5 > 20, attack sends 3). -/
theorem simulate_day_sent_bounds_witness :
    (∀ p ∈ [((some 0 : Option ℕ), (3 : ℤ))],
      0 ≤ p.2 ∧ p.2 ≤ 8 ∧ (p.1 = none → p.2 = 0)) ∧
    ∀ (buffer : List Land) (heap : List HeapNode)
      (out : (Option ℕ × ℤ) × List Land × List HeapNode),
      dayStep 8 buffer heap = some out → out.1.1 ≠ none →
      ∃ i, out.1 = (some i, min (buffer.getD i defaultLand).guardians 8) :=
  simulate_day_sent_bounds ⟨[⟨"Y", 12, 3⟩], 1⟩ 8 [(some 0, 3)]
    ⟨[⟨"Y", 0, 0⟩], 1⟩ (by norm_num)
    (by intro l hl
        simp only [List.mem_singleton] at hl
        subst hl
        norm_num)
    (by with_unfolding_all decide)

/-! ## Lemmas about select_sites -/

theorem selectSitesGo_nonpos (r : ℤ) (entries : List (ℚ × Land)) (h : ¬ r > 0) :
    selectSitesGo r entries = [] := by
  cases entries with
  | nil => rfl
  | cons e rest => simp [selectSitesGo, if_neg h]

theorem selectSitesGo_map_take (r : ℤ) (entries : List (ℚ × Land)) :
    (selectSitesGo r entries).map Prod.fst =
      (entries.map Prod.snd).take (selectSitesGo r entries).length := by
  induction entries generalizing r with
  | nil => simp [selectSitesGo]
  | cons e rest ih =>
    by_cases h : r > 0
    · simp only [selectSitesGo, if_pos h, List.map_cons, List.length_cons,
        List.take_succ_cons, List.cons.injEq]
      exact ⟨trivial, ih _⟩
    · simp [selectSitesGo, if_neg h]

theorem selectSitesGo_sum (r : ℤ) (entries : List (ℚ × Land)) :
    sumSent (selectSitesGo r entries) = r - remainingAfter r entries := by
  induction entries generalizing r with
  | nil => simp [selectSitesGo, remainingAfter, sumSent]
  | cons e rest ih =>
    by_cases h : r > 0
    · simp only [selectSitesGo, remainingAfter, if_pos h, sumSent, List.map_cons,
        List.sum_cons]
      have hih := ih (r - min r e.2.guardians)
      simp only [sumSent] at hih
      rw [hih]
      ring
    · simp [selectSitesGo, remainingAfter, if_neg h, sumSent]

theorem remainingAfter_nonneg (r : ℤ) (entries : List (ℚ × Land)) (hr : 0 ≤ r) :
    0 ≤ remainingAfter r entries := by
  induction entries generalizing r with
  | nil => simpa [remainingAfter]
  | cons e rest ih =>
    by_cases h : r > 0
    · simp only [remainingAfter, if_pos h]
      exact ih _ (sub_nonneg.mpr (min_le_left _ _))
    · simpa [remainingAfter, if_neg h]

/-- C3: select_sites visits container entries in traversal (ascending
ratio-key) order — its visited sites are an initial segment of the
in-order value sequence, so their keys are ascending whenever the
container keys are (last conjunct) — sends min(remaining, guard_cost)
at each visited site (by definition of `selectSitesGo`), stops at a
zero remainder or at exhaustion, returns [] on an empty container or a
zero budget, and the total sent equals the starting budget minus the
remaining count after traversal, so it never exceeds the starting
budget. -/
theorem select_sites_spec (st : Mode1State) (hB : 0 ≤ st.total_adventurers)
    (hsorted : (st.entries.map Prod.fst).Pairwise (fun a b => a < b)) :
    ((select_sites st).1.map Prod.fst =
      (st.entries.map Prod.snd).take (select_sites st).1.length) ∧
    (st.entries = [] → (select_sites st).1 = []) ∧
    (st.total_adventurers = 0 → (select_sites st).1 = []) ∧
    (sumSent (select_sites st).1 =
      st.total_adventurers - remainingAfter st.total_adventurers st.entries) ∧
    0 ≤ remainingAfter st.total_adventurers st.entries ∧
    sumSent (select_sites st).1 ≤ st.total_adventurers ∧
    ((st.entries.map Prod.fst).take (select_sites st).1.length).Pairwise
      (fun a b => a < b) := by
  have h4 : sumSent (select_sites st).1 =
      st.total_adventurers - remainingAfter st.total_adventurers st.entries :=
    selectSitesGo_sum st.total_adventurers st.entries
  have h5 := remainingAfter_nonneg st.total_adventurers st.entries hB
  refine ⟨selectSitesGo_map_take _ _, ?_, ?_, h4, h5, by omega, ?_⟩
  · intro he
    simp [select_sites, he, selectSitesGo]
  · intro h0
    simp only [select_sites, h0]
    exact selectSitesGo_nonpos 0 st.entries (by omega)
  · exact List.Pairwise.sublist (List.take_sublist _ _) hsorted

/-- Witness for C3 on the spec's Mode 1 scenario (A, C, B in ascending
ratio order, budget 300). -/
theorem select_sites_spec_witness :
    sumSent (select_sites demoMode1).1 ≤ demoMode1.total_adventurers ∧
    (select_sites demoMode1).1.map Prod.fst =
      (demoMode1.entries.map Prod.snd).take (select_sites demoMode1).1.length :=
  ⟨(select_sites_spec demoMode1 (by norm_num [demoMode1])
      (by norm_num [demoMode1, List.pairwise_cons])).2.2.2.2.2.1,
    (select_sites_spec demoMode1 (by norm_num [demoMode1])
      (by norm_num [demoMode1, List.pairwise_cons])).1⟩

/-- C5 (code_bug evaluation): a container holding the site Z(reward 5,
guard_cost 0) (ratio key 0, so it is visited first) makes
select_sites_from_adventure_numbers([1]) hit the bare division
adv * gold / guardians of mode1.py line 160 with guardians = 0; there
is no try/except there, so the ZeroDivisionError propagates (the call
fails) instead of contributing the reward 0 that the spec requires. -/
theorem ssfan_zero_guard_fault :
    select_sites_from_adventure_numbers ⟨[(0, ⟨"Z", 5, 0⟩)], 10⟩ [1] = none := by
  norm_num [select_sites_from_adventure_numbers, ssfanGo, pathReward, landReward,
    pyDiv, select_sites, selectSitesGo, min_def]

/-- C7: whenever select_sites_from_adventure_numbers returns, the
navigator's stored resource budget equals its value before the call,
for any list of probed budgets. -/
theorem ssfan_restores_budget (st : Mode1State) (budgets : List ℤ)
    (rs : List ℚ) (st2 : Mode1State)
    (h : select_sites_from_adventure_numbers st budgets = some (rs, st2)) :
    st2.total_adventurers = st.total_adventurers := by
  cases hg : ssfanGo st budgets with
  | none => simp [select_sites_from_adventure_numbers, hg] at h
  | some q =>
    obtain ⟨rs0, st3⟩ := q
    simp only [select_sites_from_adventure_numbers, hg, Option.some.injEq,
      Prod.mk.injEq] at h
    obtain ⟨rfl, rfl⟩ := h
    rfl

/-- Witness for C7 at a concrete run: probing budget 130 on a one-site
container returns normally and leaves the stored budget at 300. -/
theorem ssfan_restores_budget_witness :
    (Mode1State.mk [((1:ℚ)/5, demoA)] 300).total_adventurers =
      (Mode1State.mk [((1:ℚ)/5, demoA)] 300).total_adventurers :=
  ssfan_restores_budget ⟨[((1:ℚ)/5, demoA)], 300⟩ [130] [500]
    ⟨[((1:ℚ)/5, demoA)], 300⟩
    (by norm_num [select_sites_from_adventure_numbers, ssfanGo, pathReward,
      landReward, pyDiv, select_sites, selectSitesGo, demoA, min_def])

theorem ssfanGo_entries (st : Mode1State) (budgets : List ℤ)
    (rs : List ℚ) (st2 : Mode1State) (h : ssfanGo st budgets = some (rs, st2)) :
    st2.entries = st.entries := by
  induction budgets generalizing st rs st2 with
  | nil =>
    simp only [ssfanGo, Option.some.injEq, Prod.mk.injEq] at h
    obtain ⟨rfl, rfl⟩ := h
    rfl
  | cons b bs ih =>
    cases hr : pathReward (select_sites { st with total_adventurers := b }).1 with
    | none => simp [ssfanGo, hr] at h
    | some r =>
      cases hg : ssfanGo { st with total_adventurers := b } bs with
      | none => simp [ssfanGo, hr, hg] at h
      | some q =>
        obtain ⟨rs3, st3⟩ := q
        simp only [ssfanGo, hr, hg, Option.some.injEq, Prod.mk.injEq] at h
        obtain ⟨rfl, rfl⟩ := h
        exact ih { st with total_adventurers := b } rs3 st3 hg

/-- C10: select_sites mutates neither the sites nor the container nor
any other navigator state (its post-call state is its pre-call state),
and whenever select_sites_from_adventure_numbers returns, the container
entries — the held sites' fields included — equal those before the
call, so the only field it touches is the temporarily-overwritten-and-
restored budget. -/
theorem mode1_queries_frame :
    (∀ st : Mode1State, (select_sites st).2 = st) ∧
    (∀ (st : Mode1State) (budgets : List ℤ) (rs : List ℚ) (st2 : Mode1State),
      select_sites_from_adventure_numbers st budgets = some (rs, st2) →
      st2.entries = st.entries) := by
  refine ⟨fun st => rfl, fun st budgets rs st2 h => ?_⟩
  cases hg : ssfanGo st budgets with
  | none => simp [select_sites_from_adventure_numbers, hg] at h
  | some q =>
    obtain ⟨rs0, st3⟩ := q
    simp only [select_sites_from_adventure_numbers, hg, Option.some.injEq,
      Prod.mk.injEq] at h
    obtain ⟨rfl, rfl⟩ := h
    exact ssfanGo_entries st budgets rs0 st3 hg

/-- Witness for C10 at a concrete run (see the C7 witness run). -/
theorem mode1_queries_frame_witness :
    (select_sites demoMode1).2 = demoMode1 ∧
    (Mode1State.mk [((1:ℚ)/5, demoA)] 300).entries =
      (Mode1State.mk [((1:ℚ)/5, demoA)] 300).entries :=
  ⟨mode1_queries_frame.1 demoMode1,
    mode1_queries_frame.2 ⟨[((1:ℚ)/5, demoA)], 300⟩ [130] [500]
      ⟨[((1:ℚ)/5, demoA)], 300⟩
      (by norm_num [select_sites_from_adventure_numbers, ssfanGo, pathReward,
        landReward, pyDiv, select_sites, selectSitesGo, demoA, min_def])⟩

/-! ## Lemmas about the ordered container model -/

theorem bstLookup_insert_self (key : ℚ) (land : Land) :
    ∀ es : List (ℚ × Land), bstLookup key (bstInsert key land es) = some land := by
  intro es
  induction es with
  | nil => simp [bstInsert, bstLookup]
  | cons e rest ih =>
    by_cases h1 : key < e.1
    · simp [bstInsert, if_pos h1, bstLookup]
    · by_cases h2 : key = e.1
      · simp [bstInsert, if_neg h1, if_pos h2, bstLookup]
      · simp only [bstInsert, if_neg h1, if_neg h2, bstLookup]
        rw [if_neg (fun hh => h2 hh.symm)]
        exact ih

theorem bstLookup_insert_ne (key key2 : ℚ) (land : Land) (hne : key ≠ key2) :
    ∀ es : List (ℚ × Land),
      bstLookup key (bstInsert key2 land es) = bstLookup key es := by
  intro es
  induction es with
  | nil =>
    simp only [bstInsert, bstLookup]
    rw [if_neg (fun hh => hne hh.symm)]
  | cons e rest ih =>
    by_cases h1 : key2 < e.1
    · simp only [bstInsert, if_pos h1, bstLookup]
      rw [if_neg (fun hh => hne hh.symm)]
    · by_cases h2 : key2 = e.1
      · simp only [bstInsert, if_neg h1, if_pos h2, bstLookup]
        rw [if_neg (fun hh => hne hh.symm), if_neg (fun hh => hne (h2 ▸ hh).symm)]
      · simp only [bstInsert, if_neg h1, if_neg h2, bstLookup]
        by_cases h3 : e.1 = key
        · rw [if_pos h3, if_pos h3]
        · rw [if_neg h3, if_neg h3]
          exact ih

theorem bstDelete_some_of_mem (key : ℚ) :
    ∀ es : List (ℚ × Land), key ∈ es.map Prod.fst →
      ∃ es2, bstDelete key es = some es2 := by
  intro es
  induction es with
  | nil => intro h; simp at h
  | cons e rest ih =>
    intro h
    by_cases he : e.1 = key
    · exact ⟨rest, by simp [bstDelete, if_pos he]⟩
    · have hmem : key ∈ rest.map Prod.fst := by
        simp only [List.map_cons, List.mem_cons] at h
        rcases h with h | h
        · exact absurd h.symm he
        · exact h
      obtain ⟨es2, hes2⟩ := ih hmem
      exact ⟨e :: es2, by simp [bstDelete, if_neg he, hes2]⟩

theorem bstLookup_eq_none (key : ℚ) :
    ∀ es : List (ℚ × Land), key ∉ es.map Prod.fst → bstLookup key es = none := by
  intro es
  induction es with
  | nil => intro _; rfl
  | cons e rest ih =>
    intro h
    simp only [List.map_cons, List.mem_cons] at h
    push_neg at h
    simp only [bstLookup]
    rw [if_neg (fun he => h.1 he.symm)]
    exact ih h.2

theorem bstDelete_not_mem (key : ℚ) :
    ∀ (es es2 : List (ℚ × Land)), bstDelete key es = some es2 →
      (es.map Prod.fst).Nodup → bstLookup key es2 = none := by
  intro es
  induction es with
  | nil => intro es2 h; simp [bstDelete] at h
  | cons e rest ih =>
    intro es2 h hnodup
    have hnd : e.1 ∉ rest.map Prod.fst ∧ (rest.map Prod.fst).Nodup := by
      rw [List.map_cons, List.nodup_cons] at hnodup
      exact hnodup
    by_cases he : e.1 = key
    · simp only [bstDelete, if_pos he, Option.some.injEq] at h
      subst h
      apply bstLookup_eq_none
      rw [← he]
      exact hnd.1
    · cases hr : bstDelete key rest with
      | none => simp [bstDelete, if_neg he, hr] at h
      | some rest2 =>
        simp only [bstDelete, if_neg he, hr, Option.some.injEq] at h
        subst h
        simp only [bstLookup]
        rw [if_neg he]
        exact ih rest2 hr hnd.2

/-- C6 (amended): for a site present in the container under its current
ratio key (container keys unique, rewards nonzero as the data model
requires), update_site deletes the old-key entry, mutates the site, and
reinserts it under the recomputed key; afterwards a lookup at the new
key returns the mutated site, and — provided the recomputed key differs
from the pre-mutation key — a lookup at the old key fails.  (When the
two keys coincide, the old-key lookup returns the mutated site instead;
see the counterexample.) -/
theorem update_site_rekey (st : Mode1State) (land : Land) (new_reward : ℚ)
    (new_guardians : ℤ)
    (hmem : ratioKey land ∈ st.entries.map Prod.fst)
    (hnodup : (st.entries.map Prod.fst).Nodup)
    (hgold : land.gold ≠ 0) (hnew : new_reward ≠ 0)
    (hne : ratioKey (updatedLand land new_reward new_guardians) ≠ ratioKey land) :
    ∃ st2, update_site st land new_reward new_guardians = some st2 ∧
      bstLookup (ratioKey (updatedLand land new_reward new_guardians)) st2.entries =
        some (updatedLand land new_reward new_guardians) ∧
      bstLookup (ratioKey land) st2.entries = none := by
  have hk : ratioKeyM land = some (ratioKey land) := by
    simp [ratioKeyM, ratioKey, pyDiv, hgold]
  have hk2 : ratioKeyM (updatedLand land new_reward new_guardians) =
      some (ratioKey (updatedLand land new_reward new_guardians)) := by
    simp [ratioKeyM, ratioKey, pyDiv, updatedLand, hnew]
  obtain ⟨es2, hdel⟩ := bstDelete_some_of_mem (ratioKey land) st.entries hmem
  refine ⟨⟨bstInsert (ratioKey (updatedLand land new_reward new_guardians))
      (updatedLand land new_reward new_guardians) es2, st.total_adventurers⟩,
    ?_, ?_, ?_⟩
  · simp only [update_site, hk, hdel, hk2]
  · exact bstLookup_insert_self _ _ es2
  · rw [bstLookup_insert_ne _ _ _ (fun hh => hne hh.symm) es2]
    exact bstDelete_not_mem _ _ _ hdel hnodup

/-- Witness for the amended C6 theorem: updating A(500,100) to
(300,450) moves the ratio key from 1/5 to 3/2. -/
theorem update_site_rekey_witness :
    ∃ st2, update_site ⟨[((1:ℚ)/5, demoA)], 300⟩ demoA 300 450 = some st2 ∧
      bstLookup (ratioKey (updatedLand demoA 300 450)) st2.entries =
        some (updatedLand demoA 300 450) ∧
      bstLookup (ratioKey demoA) st2.entries = none :=
  update_site_rekey ⟨[((1:ℚ)/5, demoA)], 300⟩ demoA 300 450
    (by norm_num [ratioKey, demoA])
    (by simp)
    (by norm_num [demoA])
    (by norm_num)
    (by norm_num [ratioKey, updatedLand, demoA])

/-- C6 (counterexample): updating A(500,100) to (1000,200) recomputes
the same ratio key 1/5, and the post-call lookup at the old key 1/5
returns the mutated site — it does not fail as the claim requires. -/
theorem update_site_same_key_lookup :
    (update_site ⟨[((1:ℚ)/5, ⟨"A", 500, 100⟩)], 300⟩ ⟨"A", 500, 100⟩ 1000 200).map
      (fun st2 => bstLookup ((1:ℚ)/5) st2.entries) =
    some (some ⟨"A", 1000, 200⟩) := by
  norm_num [update_site, ratioKeyM, pyDiv, updatedLand, bstDelete, bstInsert,
    bstLookup]

end OnePieceSim
